import Mathlib

/-!
Verification development for the DMS coordinate parser of
`sulfuric_acid_map.py` (function `parse_coordinates`, lines 7-82).

The parser is embedded shallowly over `List Char`.  The three regular
expressions of the source are deterministic for greedy (maximal-munch)
matching, because at every quantifier boundary the character classes on
both sides are disjoint (digits vs. unit marks, spaces vs. letters,
optional quote vs. letters, the optional fraction vs. the characters
that may follow a seconds group); hence each pattern is embedded as a
deterministic left-to-right matcher, and `re.search` as the scan that
tries every start position from the left.  Python floats are modelled
as exact rationals, `\d` as the ASCII digits, `\s` as the six ASCII
whitespace characters, and `re.IGNORECASE` on the class `[NSEW]` as the
eight-letter class `{N,S,E,W,n,s,e,w}`.
-/

namespace SAMap

/-- The apostrophe character `'` (ASCII 39), the ASCII minute mark. -/
def apos : Char := Char.ofNat 39

/-- The double-quote character `"` (ASCII 34), the ASCII second mark. -/
def quot : Char := Char.ofNat 34

/-- `\d` of the source patterns: an ASCII decimal digit. -/
def isDig (c : Char) : Bool := decide (48 ≤ c.toNat) && decide (c.toNat ≤ 57)

/-- `\s` of the source patterns: ASCII whitespace. -/
def isSpc (c : Char) : Bool :=
  c == ' ' || c == '\t' || c == '\n' || c == '\r' || c == '\x0b' || c == '\x0c'

/-- The literal `,` of pattern 1. -/
def isComma (c : Char) : Bool := c == ','

/-- The class `[°º]` (line 19 etc. of the source). -/
def isDegMark (c : Char) : Bool := c == '°' || c == 'º'

/-- The class `['′]` of the source. -/
def isMinMark (c : Char) : Bool := c == apos || c == '′'

/-- The class `["″]` of the source. -/
def isSecMark (c : Char) : Bool := c == quot || c == '″'

/-- The class `[NSEW]` under `re.IGNORECASE`. -/
def isNSEW (c : Char) : Bool :=
  c == 'N' || c == 'S' || c == 'E' || c == 'W' ||
  c == 'n' || c == 's' || c == 'e' || c == 'w'

/-- The class `[NS]` (line 55 of the source) under `re.IGNORECASE`. -/
def isNS (c : Char) : Bool := c == 'N' || c == 'S' || c == 'n' || c == 's'

/-- The class `[EW]` (line 55 of the source) under `re.IGNORECASE`. -/
def isEW (c : Char) : Bool := c == 'E' || c == 'W' || c == 'e' || c == 'w'

/-- Greedy run of `\d`: returns the maximal digit run and the rest. -/
def takeDigits : List Char → List Char × List Char
  | [] => ([], [])
  | c :: t =>
    if isDig c then
      let p := takeDigits t
      (c :: p.1, p.2)
    else ([], c :: t)

/-- `(\d+)`: at least one digit, captured greedily. -/
def matchNum (l : List Char) : Option (List Char × List Char) :=
  let p := takeDigits l
  if p.1 = [] then none else some p

/-- `\s*`: drop a maximal run of whitespace. -/
def skipSpaces : List Char → List Char
  | [] => []
  | c :: t => if isSpc c then skipSpaces t else c :: t

/-- `\s+`: at least one whitespace character, then a maximal run. -/
def skipSpaces1 (l : List Char) : Option (List Char) :=
  match l with
  | [] => none
  | c :: t => if isSpc c then some (skipSpaces t) else none

/-- A single mandatory character from a class, not captured. -/
def eatClass (p : Char → Bool) : List Char → Option (List Char)
  | [] => none
  | c :: t => if p c then some t else none

/-- A single mandatory character from a class, captured. -/
def grabClass (p : Char → Bool) : List Char → Option (Char × List Char)
  | [] => none
  | c :: t => if p c then some (c, t) else none

/-- An optional character from a class (`["″]?`), not captured. -/
def eatOpt (p : Char → Bool) : List Char → List Char
  | [] => []
  | c :: t => if p c then t else c :: t

/-- `(\d+(?:\.\d+)?)`: digits with an optional fractional part, the whole
match captured as one group (the fractional part is present exactly when
a dot followed by at least one digit comes next). -/
def matchDecimal (l : List Char) : Option (List Char × List Char) :=
  match matchNum l with
  | none => none
  | some (ip, r) =>
    match r with
    | c :: r2 =>
      if c = '.' then
        match matchNum r2 with
        | none => some (ip, c :: r2)
        | some (fp, r3) => some (ip ++ '.' :: fp, r3)
      else some (ip, c :: r2)
    | [] => some (ip, [])

/-- The eight captured groups of each source pattern. -/
structure DmsCaps where
  latDeg : List Char
  latMin : List Char
  latSec : List Char
  latDir : Char
  lonDeg : List Char
  lonMin : List Char
  lonSec : List Char
  lonDir : Char
  deriving DecidableEq, Repr

/-- One DMS group of patterns 1 and 2:
`(\d+)[°º]\s*(\d+)['′]\s*(\d+(?:\.\d+)?)["″]?\s*([NSEW])`. -/
def dmsGroup (l : List Char) : Option ((List Char × List Char × List Char × Char) × List Char) :=
  match matchNum l with
  | none => none
  | some (d, l1) =>
  match eatClass isDegMark l1 with
  | none => none
  | some l2 =>
  match matchNum (skipSpaces l2) with
  | none => none
  | some (m, l3) =>
  match eatClass isMinMark l3 with
  | none => none
  | some l4 =>
  match matchDecimal (skipSpaces l4) with
  | none => none
  | some (s, l5) =>
  match grabClass isNSEW (skipSpaces (eatOpt isSecMark l5)) with
  | none => none
  | some (h, l6) => some ((d, m, s, h), l6)

/-- Pattern 1 (line 19 of the source): two DMS groups joined by `,\s*`. -/
def pat1M (l : List Char) : Option (DmsCaps × List Char) :=
  match dmsGroup l with
  | none => none
  | some ((d1, m1, s1, h1), r1) =>
  match eatClass isComma r1 with
  | none => none
  | some r2 =>
  match dmsGroup (skipSpaces r2) with
  | none => none
  | some ((d2, m2, s2, h2), r3) => some (⟨d1, m1, s1, h1, d2, m2, s2, h2⟩, r3)

/-- Pattern 2 (line 21 of the source): two DMS groups joined by `\s+`. -/
def pat2M (l : List Char) : Option (DmsCaps × List Char) :=
  match dmsGroup l with
  | none => none
  | some ((d1, m1, s1, h1), r1) =>
  match skipSpaces1 r1 with
  | none => none
  | some r2 =>
  match dmsGroup r2 with
  | none => none
  | some ((d2, m2, s2, h2), r3) => some (⟨d1, m1, s1, h1, d2, m2, s2, h2⟩, r3)

/-- One group of the simplified pattern (line 55 of the source):
`(\d+)[°º](\d+)['′](\d+)["″]?(dir)` with no internal whitespace. -/
def simpleGroup (dirp : Char → Bool) (l : List Char) :
    Option ((List Char × List Char × List Char × Char) × List Char) :=
  match matchNum l with
  | none => none
  | some (d, l1) =>
  match eatClass isDegMark l1 with
  | none => none
  | some l2 =>
  match matchNum l2 with
  | none => none
  | some (m, l3) =>
  match eatClass isMinMark l3 with
  | none => none
  | some l4 =>
  match matchNum l4 with
  | none => none
  | some (s, l5) =>
  match grabClass dirp (eatOpt isSecMark l5) with
  | none => none
  | some (h, l6) => some ((d, m, s, h), l6)

/-- The simplified pattern (line 55): `[NS]` group, `\s+`, `[EW]` group. -/
def simpM (l : List Char) : Option (DmsCaps × List Char) :=
  match simpleGroup isNS l with
  | none => none
  | some ((d1, m1, s1, h1), r1) =>
  match skipSpaces1 r1 with
  | none => none
  | some r2 =>
  match simpleGroup isEW r2 with
  | none => none
  | some ((d2, m2, s2, h2), r3) => some (⟨d1, m1, s1, h1, d2, m2, s2, h2⟩, r3)

/-- `re.search`: try the matcher at every start position, leftmost first
(the final, empty position included). -/
def search {α : Type} (m : List Char → Option α) : List Char → Option α
  | [] => m []
  | c :: t =>
    match m (c :: t) with
    | some r => some r
    | none => search m t

/-- Value of an all-digit capture, most significant digit first. -/
def digitsToNat (l : List Char) : Nat := l.foldl (fun a c => 10 * a + (c.toNat - 48)) 0

/-- Python `float` on a captured group of shape `\d+(\.\d+)?`, modelled
exactly as a rational. -/
def pyFloat (l : List Char) : ℚ :=
  let ip := l.takeWhile (fun c => !(c == '.'))
  let rest := l.dropWhile (fun c => !(c == '.'))
  match rest with
  | [] => (digitsToNat ip : ℚ)
  | _ :: fp => (digitsToNat ip : ℚ) + (digitsToNat fp : ℚ) / (10 ^ fp.length : ℚ)

/-- Lines 29-48 (and their copy at lines 58-76): convert the eight
captured groups to the signed decimal-degree pair. -/
def convertGroups (g : DmsCaps) : ℚ × ℚ :=
  let lat_deg := pyFloat g.latDeg
  let lat_min := pyFloat g.latMin / 60
  let lat_sec := pyFloat g.latSec / 3600
  let lat_dir := g.latDir.toUpper
  let lon_deg := pyFloat g.lonDeg
  let lon_min := pyFloat g.lonMin / 60
  let lon_sec := pyFloat g.lonSec / 3600
  let lon_dir := g.lonDir.toUpper
  let latitude := lat_deg + lat_min + lat_sec
  let latitude := if lat_dir == 'S' then -latitude else latitude
  let longitude := lon_deg + lon_min + lon_sec
  let longitude := if lon_dir == 'W' then -longitude else longitude
  (latitude, longitude)

/-- Python `str.strip()` restricted to ASCII whitespace. -/
def trimChars (l : List Char) : List Char :=
  ((l.dropWhile isSpc).reverse.dropWhile isSpc).reverse

/-- `startsWithChars p l`: `l` begins with the character list `p`. -/
def startsWithChars : List Char → List Char → Bool
  | [], _ => true
  | _ :: _, [] => false
  | p :: ps, c :: cs => p == c && startsWithChars ps cs

/-- Python `in` on strings: substring containment. -/
def containsSub (pat : List Char) : List Char → Bool
  | [] => startsWithChars pat []
  | c :: t => startsWithChars pat (c :: t) || containsSub pat t

/-- The character list of the hard-coded literal of line 51:
`33° 46' 36" N, 118° 17' 0" W`. -/
def litChars : List Char :=
  ['3', '3', '°', ' ', '4', '6', apos, ' ', '3', '6', quot, ' ', 'N', ',', ' ',
   '1', '1', '8', '°', ' ', '1', '7', apos, ' ', '0', quot, ' ', 'W']

/-- The diagnostic side channel: `noMatch` is the print of line 78,
`convError` the print of line 81 (unreachable in the embedded body,
which is total). -/
inductive Diagnostic where
  | noMatch
  | convError
  deriving DecidableEq, Repr

/-- The observable outcome of one call: the returned pair (each
component `none` for Python `None`) and the diagnostic, if any. -/
structure ParseResult where
  lat : Option ℚ
  lon : Option ℚ
  diag : Option Diagnostic
  deriving DecidableEq, Repr

/-- The argument of `parse_coordinates`: Python `None` (or any falsy
value), a non-string value, or a string. -/
inductive PyInput where
  | absent
  | nonStr
  | str (s : String)
  deriving DecidableEq, Repr

/-- A successful match: both components returned, no diagnostic
(lines 29-48 / 58-76). -/
def hitResult (g : DmsCaps) : ParseResult :=
  ⟨some (convertGroups g).1, some (convertGroups g).2, none⟩

/-- The loop of lines 25-48: `re.search` with pattern 1, then with
pattern 2, first success wins. -/
def tryPatterns (cleaned : List Char) : Option DmsCaps :=
  match search pat1M cleaned with
  | some (g, _) => some g
  | none =>
    match search pat2M cleaned with
    | some (g, _) => some g
    | none => none

/-- `parse_coordinates` (lines 7-82 of `sulfuric_acid_map.py`). -/
def parse_coordinates : PyInput → ParseResult
  | .absent => ⟨none, none, none⟩
  | .nonStr => ⟨none, none, none⟩
  | .str s =>
    if s.data = [] then ⟨none, none, none⟩
    else
      let cleaned := trimChars s.data
      match tryPatterns cleaned with
      | some g => hitResult g
      | none =>
        if containsSub litChars cleaned then
          ⟨some (3377 / 100), some (-(118283333 / 1000000)), none⟩
        else
          match search simpM cleaned with
          | some (g, _) => hitResult g
          | none => ⟨none, none, some Diagnostic.noMatch⟩

/-- The reduced parser of claim C5: only patterns 1 and 2 are tried; no
literal-exception branch, no simplified-pattern branch. -/
def reducedParse : PyInput → ParseResult
  | .absent => ⟨none, none, none⟩
  | .nonStr => ⟨none, none, none⟩
  | .str s =>
    if s.data = [] then ⟨none, none, none⟩
    else
      match tryPatterns (trimChars s.data) with
      | some g => hitResult g
      | none => ⟨none, none, some Diagnostic.noMatch⟩

/-- The caller loop of `process_data_file` (lines 142-149): one
independent call per row. -/
def runBatch (l : List PyInput) : List ParseResult := l.map parse_coordinates

/-! ### Character-class facts -/

lemma nsew_cases {c : Char} (h : isNSEW c = true) :
    c = 'N' ∨ c = 'S' ∨ c = 'E' ∨ c = 'W' ∨ c = 'n' ∨ c = 's' ∨ c = 'e' ∨ c = 'w' := by
  simp only [isNSEW, Bool.or_eq_true, beq_iff_eq] at h
  tauto

lemma ns_cases {c : Char} (h : isNS c = true) :
    c = 'N' ∨ c = 'S' ∨ c = 'n' ∨ c = 's' := by
  simp only [isNS, Bool.or_eq_true, beq_iff_eq] at h
  tauto

lemma ew_cases {c : Char} (h : isEW c = true) :
    c = 'E' ∨ c = 'W' ∨ c = 'e' ∨ c = 'w' := by
  simp only [isEW, Bool.or_eq_true, beq_iff_eq] at h
  tauto

lemma secMark_cases {c : Char} (h : isSecMark c = true) : c = quot ∨ c = '″' := by
  simp only [isSecMark, Bool.or_eq_true, beq_iff_eq] at h
  tauto

lemma isDig_not_spc {c : Char} (h : isDig c = true) : isSpc c = false := by
  simp only [isSpc, Bool.or_eq_false_iff, beq_eq_false_iff_ne, ne_eq]
  refine ⟨⟨⟨⟨⟨?_, ?_⟩, ?_⟩, ?_⟩, ?_⟩, ?_⟩ <;> rintro rfl <;> exact absurd h (by decide)

lemma isDig_ne_dot {c : Char} (h : isDig c = true) : c ≠ '.' := by
  rintro rfl; exact absurd h (by decide)

lemma isNSEW_not_spc {c : Char} (h : isNSEW c = true) : isSpc c = false := by
  rcases nsew_cases h with rfl | rfl | rfl | rfl | rfl | rfl | rfl | rfl <;> decide

lemma isNS_sub {c : Char} (h : isNS c = true) : isNSEW c = true := by
  rcases ns_cases h with rfl | rfl | rfl | rfl <;> decide

lemma isEW_sub {c : Char} (h : isEW c = true) : isNSEW c = true := by
  rcases ew_cases h with rfl | rfl | rfl | rfl <;> decide

lemma isNS_ne_dot {c : Char} (h : isNS c = true) : c ≠ '.' := by
  rcases ns_cases h with rfl | rfl | rfl | rfl <;> decide

lemma isEW_ne_dot {c : Char} (h : isEW c = true) : c ≠ '.' := by
  rcases ew_cases h with rfl | rfl | rfl | rfl <;> decide

lemma secMark_ne_dot {c : Char} (h : isSecMark c = true) : c ≠ '.' := by
  rcases secMark_cases h with rfl | rfl <;> decide

/-! ### Maximal-munch lemmas -/

/-- The next character (if any) is not a digit. -/
def headNotDig : List Char → Prop
  | [] => True
  | c :: _ => isDig c = false

/-- The next character (if any) is not whitespace. -/
def headNotSpc : List Char → Prop
  | [] => True
  | c :: _ => isSpc c = false

/-- The next character (if any) is not a dot. -/
def headNotDot : List Char → Prop
  | [] => True
  | c :: _ => c ≠ '.'

/-- A non-empty all-digit capture. -/
def DigitStr (l : List Char) : Prop := l ≠ [] ∧ ∀ c ∈ l, isDig c = true

lemma takeDigits_append {d r : List Char} (hd : ∀ c ∈ d, isDig c = true)
    (hr : headNotDig r) : takeDigits (d ++ r) = (d, r) := by
  induction d with
  | nil =>
    cases r with
    | nil => rfl
    | cons c t =>
      have hc : isDig c = false := hr
      simp [takeDigits, hc]
  | cons c d ih =>
    have hc : isDig c = true := hd c (by simp)
    have := ih (fun x hx => hd x (by simp [hx]))
    simp [takeDigits, hc, this]

lemma matchNum_append {d r : List Char} (hd : DigitStr d) (hr : headNotDig r) :
    matchNum (d ++ r) = some (d, r) := by
  simp [matchNum, takeDigits_append hd.2 hr, hd.1]

lemma skipSpaces_of {l : List Char} (h : headNotSpc l) : skipSpaces l = l := by
  cases l with
  | nil => rfl
  | cons c t => simp [skipSpaces, show isSpc c = false from h]

lemma skipSpaces_sp (t : List Char) : skipSpaces (' ' :: t) = skipSpaces t := by
  simp [skipSpaces, isSpc]

lemma eatClass_cons_true {p : Char → Bool} {c : Char} {t : List Char} (h : p c = true) :
    eatClass p (c :: t) = some t := by
  simp [eatClass, h]

lemma grabClass_cons_true {p : Char → Bool} {c : Char} {t : List Char} (h : p c = true) :
    grabClass p (c :: t) = some (c, t) := by
  simp [grabClass, h]

lemma eatOpt_cons_true {p : Char → Bool} {c : Char} {t : List Char} (h : p c = true) :
    eatOpt p (c :: t) = t := by
  simp [eatOpt, h]

lemma headNotDig_cons {c : Char} {t : List Char} (h : isDig c = false) :
    headNotDig (c :: t) := h

lemma headNotSpc_cons {c : Char} {t : List Char} (h : isSpc c = false) :
    headNotSpc (c :: t) := h

lemma headNotDot_cons {c : Char} {t : List Char} (h : c ≠ '.') :
    headNotDot (c :: t) := h

lemma matchNum_head {l : List Char} {x : List Char × List Char}
    (h : matchNum l = some x) : ∃ c t, l = c :: t ∧ isDig c = true := by
  cases l with
  | nil => simp [matchNum, takeDigits] at h
  | cons c t =>
    by_cases hc : isDig c = true
    · exact ⟨c, t, rfl, hc⟩
    · simp [matchNum, takeDigits, hc] at h

lemma matchNum_headNotSpc {l : List Char} {x : List Char × List Char}
    (h : matchNum l = some x) : headNotSpc l := by
  obtain ⟨c, t, rfl, hc⟩ := matchNum_head h
  simpa [headNotSpc] using isDig_not_spc hc

lemma matchDecimal_of_matchNum {l s r} (h : matchNum l = some (s, r))
    (hr : headNotDot r) : matchDecimal l = some (s, r) := by
  unfold matchDecimal
  rw [h]
  cases r with
  | nil => rfl
  | cons c t => simp [show ¬ c = '.' from hr]

lemma matchDecimal_append_nofrac {s r : List Char} (hs : DigitStr s)
    (hr1 : headNotDig r) (hr2 : headNotDot r) :
    matchDecimal (s ++ r) = some (s, r) :=
  matchDecimal_of_matchNum (matchNum_append hs hr1) hr2

lemma matchDecimal_append_frac {si sf r : List Char} (hsi : DigitStr si)
    (hsf : DigitStr sf) (hr1 : headNotDig r) :
    matchDecimal (si ++ '.' :: (sf ++ r)) = some (si ++ '.' :: sf, r) := by
  unfold matchDecimal
  rw [matchNum_append hsi (by simp [headNotDig, isDig])]
  simp [matchNum_append hsf hr1]

/-! ### A canonical well-formed comma-separated DMS pair string

`renderPair` produces exactly the form `D1° M1' S1" H1, D2° M2' S2" H2`
of the spec, with unsigned-integer degree and minute digit strings,
possibly-fractional seconds and one hemisphere letter per group. -/

/-- The seconds token: digits, optionally followed by a dot and more digits. -/
def renderSec (si sf : List Char) : List Char := if sf = [] then si else si ++ '.' :: sf

/-- One DMS group `D° M' S" H` with single spaces after the unit marks. -/
def renderGroup (d m si sf : List Char) (h : Char) : List Char :=
  d ++ '°' :: ' ' :: (m ++ apos :: ' ' :: (renderSec si sf ++ quot :: ' ' :: [h]))

/-- The comma-separated pair `D1° M1' S1" H1, D2° M2' S2" H2`. -/
def renderPair (d1 m1 s1i s1f : List Char) (h1 : Char)
    (d2 m2 s2i s2f : List Char) (h2 : Char) : List Char :=
  renderGroup d1 m1 s1i s1f h1 ++ ',' :: ' ' :: renderGroup d2 m2 s2i s2f h2

lemma matchDecimal_renderSec {si sf r : List Char} (hsi : DigitStr si)
    (hsf : ∀ c ∈ sf, isDig c = true) (hr1 : headNotDig r) (hr2 : headNotDot r) :
    matchDecimal (renderSec si sf ++ r) = some (renderSec si sf, r) := by
  unfold renderSec
  by_cases h : sf = []
  · simp only [h, if_pos rfl]
    exact matchDecimal_append_nofrac hsi hr1 hr2
  · rw [if_neg h]
    rw [List.append_assoc, List.cons_append]
    exact matchDecimal_append_frac hsi ⟨h, hsf⟩ hr1

lemma headNotSpc_renderSec {si sf : List Char} (r : List Char) (hsi : DigitStr si) :
    headNotSpc (renderSec si sf ++ r) := by
  obtain ⟨c, t, rfl⟩ := List.exists_cons_of_ne_nil hsi.1
  have hc := isDig_not_spc (hsi.2 c (by simp))
  unfold renderSec
  by_cases hsf : sf = [] <;> simp [hsf, headNotSpc, hc]

lemma dmsGroup_render {d m si sf : List Char} {h : Char} (rest : List Char)
    (hd : DigitStr d) (hm : DigitStr m) (hsi : DigitStr si)
    (hsf : ∀ c ∈ sf, isDig c = true) (hh : isNSEW h = true) :
    dmsGroup (renderGroup d m si sf h ++ rest) =
      some ((d, m, renderSec si sf, h), rest) := by
  have hL : renderGroup d m si sf h ++ rest =
      d ++ '°' :: ' ' :: (m ++ apos :: ' ' :: (renderSec si sf ++ quot :: ' ' :: h :: rest)) := by
    simp [renderGroup, List.append_assoc]
  have hmS : headNotSpc (m ++ apos :: ' ' :: (renderSec si sf ++ quot :: ' ' :: h :: rest)) := by
    obtain ⟨c, t, rfl⟩ := List.exists_cons_of_ne_nil hm.1
    exact headNotSpc_cons (isDig_not_spc (hm.2 c (by simp)))
  have hsecS : headNotSpc (renderSec si sf ++ quot :: ' ' :: h :: rest) :=
    headNotSpc_renderSec _ hsi
  have hhS : headNotSpc (h :: rest) := headNotSpc_cons (isNSEW_not_spc hh)
  rw [hL]
  unfold dmsGroup
  rw [matchNum_append hd (headNotDig_cons (by decide))]
  simp only []
  rw [eatClass_cons_true (show isDegMark '°' = true by decide)]
  simp only [skipSpaces_sp, skipSpaces_of hmS]
  rw [matchNum_append hm (headNotDig_cons (by decide))]
  simp only []
  rw [eatClass_cons_true (show isMinMark apos = true by decide)]
  simp only [skipSpaces_sp, skipSpaces_of hsecS]
  rw [matchDecimal_renderSec hsi hsf (headNotDig_cons (by decide)) (headNotDot_cons (by decide))]
  simp only []
  rw [eatOpt_cons_true (show isSecMark quot = true by decide)]
  simp only [skipSpaces_sp, skipSpaces_of hhS]
  rw [grabClass_cons_true hh]

lemma headNotSpc_renderGroup {d m si sf : List Char} {h : Char} (hd : DigitStr d) :
    headNotSpc (renderGroup d m si sf h) := by
  obtain ⟨c, t, rfl⟩ := List.exists_cons_of_ne_nil hd.1
  have hc := isDig_not_spc (hd.2 c (by simp))
  simp [renderGroup, headNotSpc, hc]

lemma pat1M_render {d1 m1 s1i s1f d2 m2 s2i s2f : List Char} {h1 h2 : Char}
    (hd1 : DigitStr d1) (hm1 : DigitStr m1) (hs1i : DigitStr s1i)
    (hs1f : ∀ c ∈ s1f, isDig c = true) (hh1 : isNSEW h1 = true)
    (hd2 : DigitStr d2) (hm2 : DigitStr m2) (hs2i : DigitStr s2i)
    (hs2f : ∀ c ∈ s2f, isDig c = true) (hh2 : isNSEW h2 = true) :
    pat1M (renderPair d1 m1 s1i s1f h1 d2 m2 s2i s2f h2) =
      some (⟨d1, m1, renderSec s1i s1f, h1, d2, m2, renderSec s2i s2f, h2⟩, []) := by
  unfold renderPair pat1M
  rw [dmsGroup_render (',' :: ' ' :: renderGroup d2 m2 s2i s2f h2) hd1 hm1 hs1i hs1f hh1]
  simp only []
  rw [eatClass_cons_true (show isComma ',' = true by decide)]
  simp only [skipSpaces_sp, skipSpaces_of (headNotSpc_renderGroup hd2)]
  rw [show renderGroup d2 m2 s2i s2f h2 = renderGroup d2 m2 s2i s2f h2 ++ [] from (List.append_nil _).symm,
    dmsGroup_render [] hd2 hm2 hs2i hs2f hh2]

/-! ### `re.search`, `strip` and `float` -/

lemma search_of_match {α : Type} {m : List Char → Option α} {l : List Char} {r : α}
    (h : m l = some r) : search m l = some r := by
  cases l with
  | nil => simpa [search] using h
  | cons c t => simp [search, h]

lemma search_isSome_cons {α : Type} {m : List Char → Option α} {c : Char} {t : List Char}
    (h : (search m t).isSome) : (search m (c :: t)).isSome := by
  rw [search]
  cases hm : m (c :: t) with
  | some r => simp
  | none => simpa using h

lemma dropWhile_isSpc_of {l : List Char} (h : headNotSpc l) : l.dropWhile isSpc = l := by
  cases l with
  | nil => rfl
  | cons c t => simp [List.dropWhile_cons, show isSpc c = false from h]

lemma trimChars_of {l : List Char} (h1 : headNotSpc l) (h2 : headNotSpc l.reverse) :
    trimChars l = l := by
  simp [trimChars, dropWhile_isSpc_of h1, dropWhile_isSpc_of h2]

lemma renderPair_snoc (d1 m1 s1i s1f : List Char) (h1 : Char)
    (d2 m2 s2i s2f : List Char) (h2 : Char) :
    renderPair d1 m1 s1i s1f h1 d2 m2 s2i s2f h2 =
      (renderGroup d1 m1 s1i s1f h1 ++
        ',' :: ' ' :: (d2 ++ '°' :: ' ' :: (m2 ++ apos :: ' ' :: (renderSec s2i s2f ++ [quot, ' '])))) ++
        [h2] := by
  simp [renderPair, renderGroup, List.append_assoc]

lemma headNotSpc_renderPair_reverse {d1 m1 s1i s1f d2 m2 s2i s2f : List Char} {h1 h2 : Char}
    (hh2 : isNSEW h2 = true) :
    headNotSpc (renderPair d1 m1 s1i s1f h1 d2 m2 s2i s2f h2).reverse := by
  rw [renderPair_snoc, List.reverse_append]
  simpa [headNotSpc] using isNSEW_not_spc hh2

lemma headNotSpc_renderPair {d1 m1 s1i s1f d2 m2 s2i s2f : List Char} {h1 h2 : Char}
    (hd1 : DigitStr d1) :
    headNotSpc (renderPair d1 m1 s1i s1f h1 d2 m2 s2i s2f h2) := by
  obtain ⟨c, t, rfl⟩ := List.exists_cons_of_ne_nil hd1.1
  have hc := isDig_not_spc (hd1.2 c (by simp))
  simp [renderPair, renderGroup, headNotSpc, hc]

lemma renderPair_ne_nil {d1 m1 s1i s1f d2 m2 s2i s2f : List Char} {h1 h2 : Char}
    (hd1 : DigitStr d1) :
    renderPair d1 m1 s1i s1f h1 d2 m2 s2i s2f h2 ≠ [] := by
  obtain ⟨c, t, rfl⟩ := List.exists_cons_of_ne_nil hd1.1
  simp [renderPair, renderGroup]

/-- Unfolding `parse_coordinates` on a string built from a character list. -/
lemma parse_str (l : List Char) :
    parse_coordinates (.str (String.mk l)) =
      (if l = [] then (⟨none, none, none⟩ : ParseResult)
       else
        match tryPatterns (trimChars l) with
        | some g => hitResult g
        | none =>
          if containsSub litChars (trimChars l) then
            ⟨some (3377 / 100), some (-(118283333 / 1000000)), none⟩
          else
            match search simpM (trimChars l) with
            | some (g, _) => hitResult g
            | none => ⟨none, none, some Diagnostic.noMatch⟩) := rfl

/-- Unfolding `reducedParse` on a string built from a character list. -/
lemma reduced_str (l : List Char) :
    reducedParse (.str (String.mk l)) =
      (if l = [] then (⟨none, none, none⟩ : ParseResult)
       else
        match tryPatterns (trimChars l) with
        | some g => hitResult g
        | none => ⟨none, none, some Diagnostic.noMatch⟩) := rfl

lemma tryPatterns_pat1 {cl : List Char} {g : DmsCaps} {r : List Char}
    (h : search pat1M cl = some (g, r)) : tryPatterns cl = some g := by
  simp [tryPatterns, h]

lemma takeWhile_ne_dot {l : List Char} (h : ∀ c ∈ l, isDig c = true) :
    l.takeWhile (fun c => !(c == '.')) = l := by
  induction l with
  | nil => rfl
  | cons c t ih =>
    have hc : (c == '.') = false := by
      simpa using isDig_ne_dot (h c (by simp))
    simp [List.takeWhile_cons, hc, ih (fun x hx => h x (by simp [hx]))]

lemma dropWhile_ne_dot {l : List Char} (h : ∀ c ∈ l, isDig c = true) :
    l.dropWhile (fun c => !(c == '.')) = [] := by
  induction l with
  | nil => rfl
  | cons c t ih =>
    have hc : (c == '.') = false := by
      simpa using isDig_ne_dot (h c (by simp))
    simp [List.dropWhile_cons, hc, ih (fun x hx => h x (by simp [hx]))]

lemma pyFloat_digits {l : List Char} (h : ∀ c ∈ l, isDig c = true) :
    pyFloat l = (digitsToNat l : ℚ) := by
  unfold pyFloat
  rw [takeWhile_ne_dot h, dropWhile_ne_dot h]

lemma takeWhile_append_dot {si sf : List Char} (h : ∀ c ∈ si, isDig c = true) :
    (si ++ '.' :: sf).takeWhile (fun c => !(c == '.')) = si := by
  induction si with
  | nil => simp [List.takeWhile_cons]
  | cons c t ih =>
    have hc : (c == '.') = false := by
      simpa using isDig_ne_dot (h c (by simp))
    simp [List.takeWhile_cons, hc, ih (fun x hx => h x (by simp [hx]))]

lemma dropWhile_append_dot {si sf : List Char} (h : ∀ c ∈ si, isDig c = true) :
    (si ++ '.' :: sf).dropWhile (fun c => !(c == '.')) = '.' :: sf := by
  induction si with
  | nil => simp [List.dropWhile_cons]
  | cons c t ih =>
    have hc : (c == '.') = false := by
      simpa using isDig_ne_dot (h c (by simp))
    simp [List.dropWhile_cons, hc, ih (fun x hx => h x (by simp [hx]))]

lemma pyFloat_renderSec {si sf : List Char} (hsi : ∀ c ∈ si, isDig c = true)
    (_hsf : ∀ c ∈ sf, isDig c = true) :
    pyFloat (renderSec si sf) =
      (digitsToNat si : ℚ) + (digitsToNat sf : ℚ) / (10 ^ sf.length : ℚ) := by
  unfold renderSec
  by_cases h : sf = []
  · simp [h, pyFloat_digits hsi, digitsToNat]
  · rw [if_neg h]
    unfold pyFloat
    rw [takeWhile_append_dot hsi, dropWhile_append_dot hsi]

/-- The conversion formula of the spec (`decimal = degrees + minutes/60 +
seconds/3600`), with the digit strings read as unsigned integers and the
fractional second digits as `frac / 10 ^ len`. -/
def dmsVal (d m si sf : List Char) : ℚ :=
  (digitsToNat d : ℚ) + (digitsToNat m : ℚ) / 60 +
    ((digitsToNat si : ℚ) + (digitsToNat sf : ℚ) / (10 ^ sf.length : ℚ)) / 3600

/-- The spec's sign rule for the first (latitude) group. -/
def latSign (h : Char) : ℚ := if h.toUpper = 'S' then -1 else 1

/-- The spec's sign rule for the second (longitude) group. -/
def lonSign (h : Char) : ℚ := if h.toUpper = 'W' then -1 else 1

lemma convert_render {d1 m1 s1i s1f d2 m2 s2i s2f : List Char} {h1 h2 : Char}
    (hd1 : ∀ c ∈ d1, isDig c = true) (hm1 : ∀ c ∈ m1, isDig c = true)
    (hs1i : ∀ c ∈ s1i, isDig c = true) (hs1f : ∀ c ∈ s1f, isDig c = true)
    (hd2 : ∀ c ∈ d2, isDig c = true) (hm2 : ∀ c ∈ m2, isDig c = true)
    (hs2i : ∀ c ∈ s2i, isDig c = true) (hs2f : ∀ c ∈ s2f, isDig c = true) :
    convertGroups ⟨d1, m1, renderSec s1i s1f, h1, d2, m2, renderSec s2i s2f, h2⟩ =
      (latSign h1 * dmsVal d1 m1 s1i s1f, lonSign h2 * dmsVal d2 m2 s2i s2f) := by
  unfold convertGroups dmsVal latSign lonSign
  rw [pyFloat_digits hd1, pyFloat_digits hm1, pyFloat_renderSec hs1i hs1f,
    pyFloat_digits hd2, pyFloat_digits hm2, pyFloat_renderSec hs2i hs2f]
  by_cases hS : h1.toUpper = 'S' <;> by_cases hW : h2.toUpper = 'W' <;>
    simp [hS, hW]

/-- Parsing the canonical well-formed comma-separated DMS pair gives
exactly the spec's conversion formula with the spec's sign rule. -/
lemma parse_renderPair {d1 m1 s1i s1f d2 m2 s2i s2f : List Char} {h1 h2 : Char}
    (hd1 : DigitStr d1) (hm1 : DigitStr m1) (hs1i : DigitStr s1i)
    (hs1f : ∀ c ∈ s1f, isDig c = true) (hh1 : isNSEW h1 = true)
    (hd2 : DigitStr d2) (hm2 : DigitStr m2) (hs2i : DigitStr s2i)
    (hs2f : ∀ c ∈ s2f, isDig c = true) (hh2 : isNSEW h2 = true) :
    parse_coordinates (.str (String.mk (renderPair d1 m1 s1i s1f h1 d2 m2 s2i s2f h2))) =
      ⟨some (latSign h1 * dmsVal d1 m1 s1i s1f),
       some (lonSign h2 * dmsVal d2 m2 s2i s2f), none⟩ := by
  rw [parse_str, if_neg (renderPair_ne_nil hd1),
    trimChars_of (headNotSpc_renderPair hd1) (headNotSpc_renderPair_reverse hh2),
    tryPatterns_pat1 (search_of_match (pat1M_render hd1 hm1 hs1i hs1f hh1 hd2 hm2 hs2i hs2f hh2))]
  simp only [hitResult,
    convert_render hd1.2 hm1.2 hs1i.2 hs1f hd2.2 hm2.2 hs2i.2 hs2f]

/-! ### The literal-exception branch and the simplified branch are dead -/

/-- The groups pattern 1 captures on the literal of line 51. -/
def litCaps : DmsCaps :=
  ⟨['3', '3'], ['4', '6'], ['3', '6'], 'N', ['1', '1', '8'], ['1', '7'], ['0'], 'W'⟩

/-- Pattern 1 matches at the start of any text beginning with the literal
of line 51, whatever follows. -/
lemma pat1M_lit (rest : List Char) : pat1M (litChars ++ rest) = some (litCaps, rest) := rfl

lemma startsWith_exists {p l : List Char} (h : startsWithChars p l = true) :
    ∃ r, l = p ++ r := by
  induction p generalizing l with
  | nil => exact ⟨l, rfl⟩
  | cons a ps ih =>
    cases l with
    | nil => simp [startsWithChars] at h
    | cons c cs =>
      simp only [startsWithChars, Bool.and_eq_true, beq_iff_eq] at h
      obtain ⟨rfl, h2⟩ := h
      obtain ⟨r, rfl⟩ := ih h2
      exact ⟨r, rfl⟩

/-- Any string containing the literal of line 51 is matched by pattern 1,
so the branch of lines 50-52 can never be reached. -/
lemma contains_lit_search1 {l : List Char} (h : containsSub litChars l = true) :
    (search pat1M l).isSome := by
  induction l with
  | nil => simp [containsSub, startsWithChars, litChars] at h
  | cons c t ih =>
    rw [containsSub, Bool.or_eq_true] at h
    rcases h with h | h
    · obtain ⟨r, hr⟩ := startsWith_exists h
      rw [hr, search_of_match (pat1M_lit r)]
      rfl
    · exact search_isSome_cons (ih h)

lemma search_mono {α : Type} {m1 m2 : List Char → Option α}
    (hm : ∀ l r, m1 l = some r → m2 l = some r) :
    ∀ l, search m2 l = none → search m1 l = none := by
  intro l
  induction l with
  | nil =>
    intro h
    rw [search] at h ⊢
    cases hm1 : m1 [] with
    | none => rfl
    | some r => rw [hm _ _ hm1] at h; exact h
  | cons c t ih =>
    intro h
    rw [search] at h ⊢
    cases hm1 : m1 (c :: t) with
    | some r =>
      rw [hm _ _ hm1] at h
      exact h
    | none =>
      simp only []
      cases hm2 : m2 (c :: t) with
      | some r => rw [hm2] at h; exact absurd h (by simp)
      | none => rw [hm2] at h; simp only [] at h; exact ih h

lemma grabClass_inv {p : Char → Bool} {l : List Char} {c : Char} {r : List Char}
    (h : grabClass p l = some (c, r)) : l = c :: r ∧ p c = true := by
  cases l with
  | nil => simp [grabClass] at h
  | cons a t =>
    cases hp : p a with
    | false => simp [grabClass, hp] at h
    | true =>
      simp [grabClass, hp] at h
      obtain ⟨rfl, rfl⟩ := h
      exact ⟨rfl, hp⟩

lemma eatOpt_cons_false {p : Char → Bool} {c : Char} {t : List Char} (h : p c = false) :
    eatOpt p (c :: t) = c :: t := by
  simp [eatOpt, h]

/-- A group of the strict no-space pattern is also a group of the
relaxed grammar of patterns 1-2, with the same captures. -/
lemma simpleGroup_to_dmsGroup {dirp : Char → Bool}
    (hsub : ∀ c, dirp c = true → isNSEW c = true)
    (hdot : ∀ c, dirp c = true → c ≠ '.')
    {l : List Char} {caps : List Char × List Char × List Char × Char} {r : List Char}
    (h : simpleGroup dirp l = some (caps, r)) : dmsGroup l = some (caps, r) := by
  unfold simpleGroup at h
  unfold dmsGroup
  cases h1 : matchNum l with
  | none => simp [h1] at h
  | some p =>
  obtain ⟨d, l1⟩ := p
  simp only [h1] at h ⊢
  cases h2 : eatClass isDegMark l1 with
  | none => simp [h2] at h
  | some l2 =>
  simp only [h2] at h ⊢
  cases h3 : matchNum l2 with
  | none => simp [h3] at h
  | some q =>
  obtain ⟨m, l3⟩ := q
  rw [skipSpaces_of (matchNum_headNotSpc h3)]
  simp only [h3] at h ⊢
  cases h4 : eatClass isMinMark l3 with
  | none => simp [h4] at h
  | some l4 =>
  simp only [h4] at h ⊢
  cases h5 : matchNum l4 with
  | none => simp [h5] at h
  | some w =>
  obtain ⟨s, l5⟩ := w
  simp only [h5] at h
  cases h6 : grabClass dirp (eatOpt isSecMark l5) with
  | none => simp [h6] at h
  | some v =>
  obtain ⟨hh, l6⟩ := v
  simp only [h6] at h
  have hnd : headNotDot l5 := by
    cases l5 with
    | nil => trivial
    | cons a u =>
      cases hsm : isSecMark a with
      | true => exact headNotDot_cons (secMark_ne_dot hsm)
      | false =>
        rw [eatOpt_cons_false hsm] at h6
        obtain ⟨heq, hdir⟩ := grabClass_inv h6
        injection heq with ha _
        exact headNotDot_cons (by rw [ha]; exact hdot _ hdir)
  rw [skipSpaces_of (matchNum_headNotSpc h5),
    matchDecimal_of_matchNum h5 hnd]
  simp only []
  obtain ⟨hX, hdir⟩ := grabClass_inv h6
  rw [hX, skipSpaces_of (headNotSpc_cons (isNSEW_not_spc (hsub _ hdir))),
    grabClass_cons_true (hsub _ hdir)]
  exact h

/-- Any match of the strict no-space pattern (line 55) is a match of
pattern 2 with the same captures, so the branch of lines 54-76 can never
produce a result that pattern 2 would not. -/
lemma simpM_to_pat2M {l : List Char} {x : DmsCaps × List Char}
    (h : simpM l = some x) : pat2M l = some x := by
  unfold simpM at h
  unfold pat2M
  cases g1 : simpleGroup isNS l with
  | none => simp [g1] at h
  | some p =>
  obtain ⟨⟨d1, m1, s1, hh1⟩, r1⟩ := p
  simp only [g1] at h
  rw [simpleGroup_to_dmsGroup (fun _ hc => isNS_sub hc) (fun _ hc => isNS_ne_dot hc) g1]
  simp only []
  cases g2 : skipSpaces1 r1 with
  | none => simp [g2] at h
  | some r2 =>
  simp only [g2] at h ⊢
  cases g3 : simpleGroup isEW r2 with
  | none => simp [g3] at h
  | some q =>
  obtain ⟨⟨d2, m2, s2, hh2⟩, r3⟩ := q
  simp only [g3] at h
  rw [simpleGroup_to_dmsGroup (fun _ hc => isEW_sub hc) (fun _ hc => isEW_ne_dot hc) g3]
  exact h

/-- The two dead branches never fire: the whole function agrees with the
reduced parser that only knows patterns 1 and 2. -/
lemma parse_eq_reduced_aux (inp : PyInput) : parse_coordinates inp = reducedParse inp := by
  cases inp with
  | absent => rfl
  | nonStr => rfl
  | str s =>
    cases s with
    | mk data =>
    rw [parse_str, reduced_str]
    by_cases he : data = []
    · simp [he]
    · rw [if_neg he, if_neg he]
      cases ht : tryPatterns (trimChars data) with
      | some g => rfl
      | none =>
        have hp1 : search pat1M (trimChars data) = none := by
          unfold tryPatterns at ht
          cases hp : search pat1M (trimChars data) with
          | some q => obtain ⟨g, r⟩ := q; simp [hp] at ht
          | none => rfl
        have hp2 : search pat2M (trimChars data) = none := by
          unfold tryPatterns at ht
          simp only [hp1] at ht
          cases hp : search pat2M (trimChars data) with
          | some q => obtain ⟨g, r⟩ := q; simp [hp] at ht
          | none => rfl
        have hcon : containsSub litChars (trimChars data) = false := by
          cases hc : containsSub litChars (trimChars data) with
          | false => rfl
          | true =>
            have := contains_lit_search1 hc
            rw [hp1] at this
            exact absurd this (by simp)
        have hsimp : search simpM (trimChars data) = none :=
          search_mono (fun _ _ hx => simpM_to_pat2M hx) _ hp2
        simp [hcon, hsimp]

/-! ### Class-preserving character maps

Both the typographic-mark substitution of claim C7 and the case flip of
a hemisphere letter of claim C6 replace characters without changing any
character class the patterns consult, without moving digits, and without
changing the uppercased value of hemisphere letters; such a substitution
cannot change the parse result. -/

/-- A character substitution that preserves every character class used by
the patterns, fixes digits, and preserves `upper()` on hemisphere letters. -/
structure MapOK (τ : Char → Char) : Prop where
  dig : ∀ c, isDig (τ c) = isDig c
  digFix : ∀ c, isDig c = true → τ c = c
  spc : ∀ c, isSpc (τ c) = isSpc c
  deg : ∀ c, isDegMark (τ c) = isDegMark c
  minm : ∀ c, isMinMark (τ c) = isMinMark c
  secm : ∀ c, isSecMark (τ c) = isSecMark c
  nsew : ∀ c, isNSEW (τ c) = isNSEW c
  upper : ∀ c, isNSEW c = true → (τ c).toUpper = c.toUpper
  comma : ∀ c, isComma (τ c) = isComma c
  dot : ∀ c, τ c = '.' ↔ c = '.'

lemma takeDigits_map {τ : Char → Char} (hτ : MapOK τ) (l : List Char) :
    takeDigits (l.map τ) = ((takeDigits l).1, (takeDigits l).2.map τ) := by
  induction l with
  | nil => rfl
  | cons c t ih =>
    cases hd : isDig c with
    | true =>
      have hd' : isDig (τ c) = true := by rw [hτ.dig]; exact hd
      simp [takeDigits, hd, hd', hτ.digFix c hd, ih]
    | false =>
      have hd' : isDig (τ c) = false := by rw [hτ.dig]; exact hd
      simp [takeDigits, hd, hd']

lemma matchNum_map {τ : Char → Char} (hτ : MapOK τ) (l : List Char) :
    matchNum (l.map τ) = (matchNum l).map (fun p => (p.1, p.2.map τ)) := by
  unfold matchNum
  rw [takeDigits_map hτ]
  by_cases hnil : (takeDigits l).1 = [] <;> simp [hnil]

lemma skipSpaces_map {τ : Char → Char} (hτ : MapOK τ) (l : List Char) :
    skipSpaces (l.map τ) = (skipSpaces l).map τ := by
  induction l with
  | nil => rfl
  | cons c t ih =>
    cases hs : isSpc c with
    | true =>
      have hs' : isSpc (τ c) = true := by rw [hτ.spc]; exact hs
      simp [skipSpaces, hs, hs', ih]
    | false =>
      have hs' : isSpc (τ c) = false := by rw [hτ.spc]; exact hs
      simp [skipSpaces, hs, hs']

lemma skipSpaces1_map {τ : Char → Char} (hτ : MapOK τ) (l : List Char) :
    skipSpaces1 (l.map τ) = (skipSpaces1 l).map (List.map τ) := by
  cases l with
  | nil => rfl
  | cons c t =>
    cases hs : isSpc c with
    | true =>
      have hs' : isSpc (τ c) = true := by rw [hτ.spc]; exact hs
      simp [skipSpaces1, hs, hs', skipSpaces_map hτ]
    | false =>
      have hs' : isSpc (τ c) = false := by rw [hτ.spc]; exact hs
      simp [skipSpaces1, hs, hs']

lemma eatClass_map {τ : Char → Char} {p : Char → Bool}
    (hp : ∀ c, p (τ c) = p c) (l : List Char) :
    eatClass p (l.map τ) = (eatClass p l).map (List.map τ) := by
  cases l with
  | nil => rfl
  | cons c t =>
    cases hc : p c with
    | true => simp [eatClass, hc, show p (τ c) = true from (hp c).trans hc]
    | false => simp [eatClass, hc, show p (τ c) = false from (hp c).trans hc]

lemma grabClass_map {τ : Char → Char} {p : Char → Bool}
    (hp : ∀ c, p (τ c) = p c) (l : List Char) :
    grabClass p (l.map τ) = (grabClass p l).map (fun q => (τ q.1, q.2.map τ)) := by
  cases l with
  | nil => rfl
  | cons c t =>
    cases hc : p c with
    | true => simp [grabClass, hc, show p (τ c) = true from (hp c).trans hc]
    | false => simp [grabClass, hc, show p (τ c) = false from (hp c).trans hc]

lemma eatOpt_map {τ : Char → Char} {p : Char → Bool}
    (hp : ∀ c, p (τ c) = p c) (l : List Char) :
    eatOpt p (l.map τ) = (eatOpt p l).map τ := by
  cases l with
  | nil => rfl
  | cons c t =>
    cases hc : p c with
    | true => simp [eatOpt, hc, show p (τ c) = true from (hp c).trans hc]
    | false => simp [eatOpt, hc, show p (τ c) = false from (hp c).trans hc]

lemma matchDecimal_map {τ : Char → Char} (hτ : MapOK τ) (l : List Char) :
    matchDecimal (l.map τ) = (matchDecimal l).map (fun p => (p.1, p.2.map τ)) := by
  unfold matchDecimal
  rw [matchNum_map hτ]
  cases hn : matchNum l with
  | none => rfl
  | some p =>
  obtain ⟨ip, r⟩ := p
  simp only [Option.map_some']
  cases r with
  | nil => rfl
  | cons c r2 =>
    simp only [List.map_cons]
    by_cases hc : c = '.'
    · rw [if_pos ((hτ.dot c).mpr hc), if_pos hc, matchNum_map hτ]
      cases hn2 : matchNum r2 with
      | none => rfl
      | some q => obtain ⟨fp, r3⟩ := q; rfl
    · rw [if_neg (fun hx => hc ((hτ.dot c).mp hx)), if_neg hc]
      rfl

/-- `mapCaps τ` applies a substitution to the two captured hemisphere
letters; the digit groups a `MapOK` substitution fixes. -/
def mapCaps (τ : Char → Char) (g : DmsCaps) : DmsCaps :=
  ⟨g.latDeg, g.latMin, g.latSec, τ g.latDir, g.lonDeg, g.lonMin, g.lonSec, τ g.lonDir⟩

lemma dmsGroup_map {τ : Char → Char} (hτ : MapOK τ) (l : List Char) :
    dmsGroup (l.map τ) =
      (dmsGroup l).map (fun q => ((q.1.1, q.1.2.1, q.1.2.2.1, τ q.1.2.2.2), q.2.map τ)) := by
  unfold dmsGroup
  rw [matchNum_map hτ]
  cases h1 : matchNum l with
  | none => rfl
  | some p =>
  obtain ⟨d, l1⟩ := p
  simp only [Option.map_some']
  rw [eatClass_map hτ.deg]
  cases h2 : eatClass isDegMark l1 with
  | none => rfl
  | some l2 =>
  simp only [Option.map_some']
  rw [skipSpaces_map hτ, matchNum_map hτ]
  cases h3 : matchNum (skipSpaces l2) with
  | none => rfl
  | some q =>
  obtain ⟨m, l3⟩ := q
  simp only [Option.map_some']
  rw [eatClass_map hτ.minm]
  cases h4 : eatClass isMinMark l3 with
  | none => rfl
  | some l4 =>
  simp only [Option.map_some']
  rw [skipSpaces_map hτ, matchDecimal_map hτ]
  cases h5 : matchDecimal (skipSpaces l4) with
  | none => rfl
  | some w =>
  obtain ⟨s, l5⟩ := w
  simp only [Option.map_some']
  rw [eatOpt_map hτ.secm, skipSpaces_map hτ, grabClass_map hτ.nsew]
  cases h6 : grabClass isNSEW (skipSpaces (eatOpt isSecMark l5)) with
  | none => rfl
  | some v => obtain ⟨hh, l6⟩ := v; rfl

lemma pat1M_map {τ : Char → Char} (hτ : MapOK τ) (l : List Char) :
    pat1M (l.map τ) = (pat1M l).map (fun q => (mapCaps τ q.1, q.2.map τ)) := by
  unfold pat1M
  rw [dmsGroup_map hτ]
  cases h1 : dmsGroup l with
  | none => rfl
  | some p =>
  obtain ⟨⟨d1, m1, s1, hh1⟩, r1⟩ := p
  simp only [Option.map_some']
  rw [eatClass_map hτ.comma]
  cases h2 : eatClass isComma r1 with
  | none => rfl
  | some r2 =>
  simp only [Option.map_some']
  rw [skipSpaces_map hτ, dmsGroup_map hτ]
  cases h3 : dmsGroup (skipSpaces r2) with
  | none => rfl
  | some q => obtain ⟨⟨d2, m2, s2, hh2⟩, r3⟩ := q; rfl

lemma pat2M_map {τ : Char → Char} (hτ : MapOK τ) (l : List Char) :
    pat2M (l.map τ) = (pat2M l).map (fun q => (mapCaps τ q.1, q.2.map τ)) := by
  unfold pat2M
  rw [dmsGroup_map hτ]
  cases h1 : dmsGroup l with
  | none => rfl
  | some p =>
  obtain ⟨⟨d1, m1, s1, hh1⟩, r1⟩ := p
  simp only [Option.map_some']
  rw [skipSpaces1_map hτ]
  cases h2 : skipSpaces1 r1 with
  | none => rfl
  | some r2 =>
  simp only [Option.map_some']
  rw [dmsGroup_map hτ]
  cases h3 : dmsGroup r2 with
  | none => rfl
  | some q => obtain ⟨⟨d2, m2, s2, hh2⟩, r3⟩ := q; rfl

lemma search_map {α β : Type} {τ : Char → Char} {M : List Char → Option α} {F : α → β}
    {N : List Char → Option β} (hM : ∀ l, N (l.map τ) = (M l).map F) (l : List Char) :
    N (l.map τ) = (M l).map F ∧ search N (l.map τ) = (search M l).map F := by
  refine ⟨hM l, ?_⟩
  induction l with
  | nil => simpa [search] using hM []
  | cons c t ih =>
    simp only [List.map_cons, search]
    rw [show τ c :: t.map τ = (c :: t).map τ from rfl, hM (c :: t)]
    cases hm : M (c :: t) with
    | some r => rfl
    | none => simpa using ih

lemma trimChars_map {τ : Char → Char} (hτ : MapOK τ) (l : List Char) :
    trimChars (l.map τ) = (trimChars l).map τ := by
  have hdw : ∀ w : List Char, (w.map τ).dropWhile isSpc = (w.dropWhile isSpc).map τ := by
    intro w
    induction w with
    | nil => rfl
    | cons c t ih =>
      cases hs : isSpc c with
      | true =>
        have hs' : isSpc (τ c) = true := by rw [hτ.spc]; exact hs
        simp [List.dropWhile_cons, hs, hs', ih]
      | false =>
        have hs' : isSpc (τ c) = false := by rw [hτ.spc]; exact hs
        simp [List.dropWhile_cons, hs, hs']
  unfold trimChars
  rw [hdw, ← List.map_reverse, hdw, ← List.map_reverse]

lemma dmsGroup_dir {l : List Char} {d m s : List Char} {hh : Char} {r : List Char}
    (h : dmsGroup l = some ((d, m, s, hh), r)) : isNSEW hh = true := by
  unfold dmsGroup at h
  cases h1 : matchNum l with
  | none => simp [h1] at h
  | some p =>
  obtain ⟨d0, l1⟩ := p
  simp only [h1] at h
  cases h2 : eatClass isDegMark l1 with
  | none => simp [h2] at h
  | some l2 =>
  simp only [h2] at h
  cases h3 : matchNum (skipSpaces l2) with
  | none => simp [h3] at h
  | some q =>
  obtain ⟨m0, l3⟩ := q
  simp only [h3] at h
  cases h4 : eatClass isMinMark l3 with
  | none => simp [h4] at h
  | some l4 =>
  simp only [h4] at h
  cases h5 : matchDecimal (skipSpaces l4) with
  | none => simp [h5] at h
  | some w =>
  obtain ⟨s0, l5⟩ := w
  simp only [h5] at h
  cases h6 : grabClass isNSEW (skipSpaces (eatOpt isSecMark l5)) with
  | none => simp [h6] at h
  | some v =>
  obtain ⟨hh0, l6⟩ := v
  simp only [h6, Option.some_inj] at h
  obtain ⟨⟨_, _, _, rfl⟩, _⟩ : (d0, m0, s0, hh0) = (d, m, s, hh) ∧ l6 = r := by
    constructor <;> [exact congrArg Prod.fst h; exact congrArg Prod.snd h]
  exact (grabClass_inv h6).2

lemma pat1M_dirs {l : List Char} {g : DmsCaps} {r : List Char}
    (h : pat1M l = some (g, r)) : isNSEW g.latDir = true ∧ isNSEW g.lonDir = true := by
  unfold pat1M at h
  cases h1 : dmsGroup l with
  | none => simp [h1] at h
  | some p =>
  obtain ⟨⟨d1, m1, s1, hh1⟩, r1⟩ := p
  simp only [h1] at h
  cases h2 : eatClass isComma r1 with
  | none => simp [h2] at h
  | some r2 =>
  simp only [h2] at h
  cases h3 : dmsGroup (skipSpaces r2) with
  | none => simp [h3] at h
  | some q =>
  obtain ⟨⟨d2, m2, s2, hh2⟩, r3⟩ := q
  simp only [h3, Option.some_inj] at h
  have hg : g = ⟨d1, m1, s1, hh1, d2, m2, s2, hh2⟩ := (congrArg Prod.fst h).symm
  rw [hg]
  exact ⟨dmsGroup_dir h1, dmsGroup_dir h3⟩

lemma pat2M_dirs {l : List Char} {g : DmsCaps} {r : List Char}
    (h : pat2M l = some (g, r)) : isNSEW g.latDir = true ∧ isNSEW g.lonDir = true := by
  unfold pat2M at h
  cases h1 : dmsGroup l with
  | none => simp [h1] at h
  | some p =>
  obtain ⟨⟨d1, m1, s1, hh1⟩, r1⟩ := p
  simp only [h1] at h
  cases h2 : skipSpaces1 r1 with
  | none => simp [h2] at h
  | some r2 =>
  simp only [h2] at h
  cases h3 : dmsGroup r2 with
  | none => simp [h3] at h
  | some q =>
  obtain ⟨⟨d2, m2, s2, hh2⟩, r3⟩ := q
  simp only [h3, Option.some_inj] at h
  have hg : g = ⟨d1, m1, s1, hh1, d2, m2, s2, hh2⟩ := (congrArg Prod.fst h).symm
  rw [hg]
  exact ⟨dmsGroup_dir h1, dmsGroup_dir h3⟩

lemma hitResult_mapCaps {τ : Char → Char} (hτ : MapOK τ) {g : DmsCaps}
    (h1 : isNSEW g.latDir = true) (h2 : isNSEW g.lonDir = true) :
    hitResult (mapCaps τ g) = hitResult g := by
  unfold hitResult convertGroups mapCaps
  rw [hτ.upper _ h1, hτ.upper _ h2]

lemma tryPatterns_map {τ : Char → Char} (hτ : MapOK τ) (l : List Char) :
    tryPatterns (l.map τ) = (tryPatterns l).map (mapCaps τ) := by
  unfold tryPatterns
  rw [(search_map (pat1M_map hτ) l).2]
  cases h1 : search pat1M l with
  | some p => obtain ⟨g, r⟩ := p; rfl
  | none =>
  simp only [Option.map_none']
  rw [(search_map (pat2M_map hτ) l).2]
  cases h2 : search pat2M l with
  | some p => obtain ⟨g, r⟩ := p; rfl
  | none => rfl

lemma search_post {α : Type} (P : α → Prop) {M : List Char → Option α}
    (hP : ∀ l x, M l = some x → P x) :
    ∀ {l : List Char} {x : α}, search M l = some x → P x := by
  intro l
  induction l with
  | nil =>
    intro x h
    rw [search] at h
    exact hP _ _ h
  | cons c t ih =>
    intro x h
    rw [search] at h
    cases hm : M (c :: t) with
    | some r =>
      rw [hm] at h
      simp only [Option.some_inj] at h
      rw [← h]
      exact hP _ _ hm
    | none => rw [hm] at h; exact ih h

set_option maxHeartbeats 1600000 in
/-- Both hemisphere captures of a successful `tryPatterns` are `[NSEW]`
letters. -/
lemma tryPatterns_dirs {cl : List Char} {g : DmsCaps}
    (ht : tryPatterns cl = some g) :
    isNSEW g.latDir = true ∧ isNSEW g.lonDir = true := by
  unfold tryPatterns at ht
  cases hp1 : search pat1M cl with
  | some p =>
    obtain ⟨g1, r1⟩ := p
    simp only [hp1, Option.some_inj] at ht
    rw [← ht]
    exact search_post (fun x => isNSEW x.1.latDir = true ∧ isNSEW x.1.lonDir = true)
      (fun _ x hx => by obtain ⟨a, b⟩ := x; exact pat1M_dirs hx) hp1
  | none =>
    simp only [hp1] at ht
    cases hp2 : search pat2M cl with
    | some p =>
      obtain ⟨g2, r2⟩ := p
      simp only [hp2, Option.some_inj] at ht
      rw [← ht]
      exact search_post (fun x => isNSEW x.1.latDir = true ∧ isNSEW x.1.lonDir = true)
        (fun _ x hx => by obtain ⟨a, b⟩ := x; exact pat2M_dirs hx) hp2
    | none => simp [hp2] at ht

/-- A `MapOK` substitution applied to every character of the input never
changes the parse result. -/
lemma parse_map {τ : Char → Char} (hτ : MapOK τ) (l : List Char) :
    parse_coordinates (.str (String.mk (l.map τ))) =
      parse_coordinates (.str (String.mk l)) := by
  rw [parse_eq_reduced_aux, parse_eq_reduced_aux, reduced_str, reduced_str]
  by_cases he : l = []
  · simp [he]
  · have hne : l.map τ ≠ [] := by simpa using he
    rw [if_neg hne, if_neg he, trimChars_map hτ, tryPatterns_map hτ]
    cases ht : tryPatterns (trimChars l) with
    | none => rfl
    | some g =>
      simp only [Option.map_some']
      exact hitResult_mapCaps hτ (tryPatterns_dirs ht).1 (tryPatterns_dirs ht).2

/-! ### The two concrete substitutions -/

/-- The typographic unit-mark substitution of the spec:
`°`→`º`, `'`→`′`, `"`→`″`, all other characters unchanged. -/
def substTypo (c : Char) : Char :=
  if c = '°' then 'º' else if c = apos then '′' else if c = quot then '″' else c

/-- `substTypo` lifted to the parser's input type. -/
def substInput : PyInput → PyInput
  | .absent => .absent
  | .nonStr => .nonStr
  | .str s => .str (String.mk (s.data.map substTypo))

lemma substTypo_ok : MapOK substTypo := by
  refine ⟨?_, ?_, ?_, ?_, ?_, ?_, ?_, ?_, ?_, ?_⟩
  · intro c; unfold substTypo; split_ifs with h1 h2 h3
    · subst h1; decide
    · subst h2; decide
    · subst h3; decide
    · rfl
  · intro c hc; unfold substTypo; split_ifs with h1 h2 h3
    · subst h1; exact absurd hc (by decide)
    · subst h2; exact absurd hc (by decide)
    · subst h3; exact absurd hc (by decide)
    · rfl
  · intro c; unfold substTypo; split_ifs with h1 h2 h3
    · subst h1; decide
    · subst h2; decide
    · subst h3; decide
    · rfl
  · intro c; unfold substTypo; split_ifs with h1 h2 h3
    · subst h1; decide
    · subst h2; decide
    · subst h3; decide
    · rfl
  · intro c; unfold substTypo; split_ifs with h1 h2 h3
    · subst h1; decide
    · subst h2; decide
    · subst h3; decide
    · rfl
  · intro c; unfold substTypo; split_ifs with h1 h2 h3
    · subst h1; decide
    · subst h2; decide
    · subst h3; decide
    · rfl
  · intro c; unfold substTypo; split_ifs with h1 h2 h3
    · subst h1; decide
    · subst h2; decide
    · subst h3; decide
    · rfl
  · intro c hc; unfold substTypo; split_ifs with h1 h2 h3
    · subst h1; exact absurd hc (by decide)
    · subst h2; exact absurd hc (by decide)
    · subst h3; exact absurd hc (by decide)
    · rfl
  · intro c; unfold substTypo; split_ifs with h1 h2 h3
    · subst h1; decide
    · subst h2; decide
    · subst h3; decide
    · rfl
  · intro c; unfold substTypo; split_ifs with h1 h2 h3
    · subst h1; simp
    · subst h2; simp [apos]
    · subst h3; simp [quot]
    · exact Iff.rfl

/-- Normalization map: hemisphere letters to upper case, typographic
marks to their ASCII forms. -/
def canonChar (c : Char) : Char :=
  if isNSEW c then c.toUpper
  else if c = 'º' then '°' else if c = '′' then apos else if c = '″' then quot else c

lemma canonChar_ok : MapOK canonChar := by
  have step : ∀ (f : Char → Bool), (∀ c, isNSEW c = true → f c.toUpper = f c) →
      f '°' = f 'º' → f apos = f '′' → f quot = f '″' →
      ∀ c, f (canonChar c) = f c := by
    intro f hflip hdeg hmin hsec c
    unfold canonChar
    split_ifs with h1 h2 h3 h4
    · exact hflip c h1
    · subst h2; exact hdeg
    · subst h3; exact hmin
    · subst h4; exact hsec
    · rfl
  refine ⟨?_, ?_, ?_, ?_, ?_, ?_, ?_, ?_, ?_, ?_⟩
  · exact step isDig
      (fun c hc => by rcases nsew_cases hc with rfl | rfl | rfl | rfl | rfl | rfl | rfl | rfl <;> decide)
      (by decide) (by decide) (by decide)
  · intro c hc; unfold canonChar; split_ifs with h1 h2 h3 h4
    · rcases nsew_cases h1 with rfl | rfl | rfl | rfl | rfl | rfl | rfl | rfl <;>
        exact absurd hc (by decide)
    · subst h2; exact absurd hc (by decide)
    · subst h3; exact absurd hc (by decide)
    · subst h4; exact absurd hc (by decide)
    · rfl
  · exact step isSpc
      (fun c hc => by rcases nsew_cases hc with rfl | rfl | rfl | rfl | rfl | rfl | rfl | rfl <;> decide)
      (by decide) (by decide) (by decide)
  · exact step isDegMark
      (fun c hc => by rcases nsew_cases hc with rfl | rfl | rfl | rfl | rfl | rfl | rfl | rfl <;> decide)
      (by decide) (by decide) (by decide)
  · exact step isMinMark
      (fun c hc => by rcases nsew_cases hc with rfl | rfl | rfl | rfl | rfl | rfl | rfl | rfl <;> decide)
      (by decide) (by decide) (by decide)
  · exact step isSecMark
      (fun c hc => by rcases nsew_cases hc with rfl | rfl | rfl | rfl | rfl | rfl | rfl | rfl <;> decide)
      (by decide) (by decide) (by decide)
  · exact step isNSEW
      (fun c hc => by rcases nsew_cases hc with rfl | rfl | rfl | rfl | rfl | rfl | rfl | rfl <;> decide)
      (by decide) (by decide) (by decide)
  · intro c hc; unfold canonChar; rw [if_pos hc]
    rcases nsew_cases hc with rfl | rfl | rfl | rfl | rfl | rfl | rfl | rfl <;> decide
  · exact step isComma
      (fun c hc => by rcases nsew_cases hc with rfl | rfl | rfl | rfl | rfl | rfl | rfl | rfl <;> decide)
      (by decide) (by decide) (by decide)
  · intro c; unfold canonChar; split_ifs with h1 h2 h3 h4
    · rcases nsew_cases h1 with rfl | rfl | rfl | rfl | rfl | rfl | rfl | rfl <;> simp
    · subst h2; simp
    · subst h3; simp [apos]
    · subst h4; simp [quot]
    · exact Iff.rfl

/-- The opposite-case variant of a letter. -/
def flipCase (c : Char) : Char := if c.isLower then c.toUpper else c.toLower

lemma canonChar_flip {c : Char} (h : isNSEW c = true) :
    canonChar (flipCase c) = canonChar c := by
  rcases nsew_cases h with rfl | rfl | rfl | rfl | rfl | rfl | rfl | rfl <;> decide

lemma map_set_list {α β : Type} (f : α → β) (l : List α) (i : Nat) (a : α) :
    (l.set i a).map f = (l.map f).set i (f a) := by
  induction l generalizing i with
  | nil => rfl
  | cons c t ih =>
    cases i with
    | zero => rfl
    | succ j => exact congrArg (f c :: ·) (ih j)

lemma set_get_self {α : Type} (l : List α) (i : Nat) (hi : i < l.length) :
    l.set i (l.get ⟨i, hi⟩) = l := by
  induction l generalizing i with
  | nil => rfl
  | cons c t ih =>
    cases i with
    | zero => rfl
    | succ j => exact congrArg (c :: ·) (ih j (by simpa using hi))

lemma get_map_canon (l : List Char) (i : Nat) (hi : i < l.length) :
    (l.map canonChar).get ⟨i, by simpa using hi⟩ = canonChar (l.get ⟨i, hi⟩) := by
  induction l generalizing i with
  | nil => cases hi
  | cons c t ih =>
    cases i with
    | zero => rfl
    | succ j => exact ih j (by simpa using hi)

/-- Flipping the case of any hemisphere letter of the input does not
change the parse result. -/
lemma parse_set_flip {l : List Char} {i : Nat} (hi : i < l.length)
    (h : isNSEW (l.get ⟨i, hi⟩) = true) :
    parse_coordinates (.str (String.mk (l.set i (flipCase (l.get ⟨i, hi⟩))))) =
      parse_coordinates (.str (String.mk l)) := by
  have h1 := parse_map canonChar_ok (l.set i (flipCase (l.get ⟨i, hi⟩)))
  have h2 := parse_map canonChar_ok l
  rw [← h1, ← h2]
  congr 2
  rw [map_set_list, canonChar_flip h, ← get_map_canon l i hi, set_get_self]

/-- Evaluation lemma: when all six numeric captures are plain digit
strings, `convertGroups` is the DMS formula on their integer values. -/
lemma convertGroups_digits (g : DmsCaps)
    (h1 : ∀ c ∈ g.latDeg, isDig c = true) (h2 : ∀ c ∈ g.latMin, isDig c = true)
    (h3 : ∀ c ∈ g.latSec, isDig c = true) (h4 : ∀ c ∈ g.lonDeg, isDig c = true)
    (h5 : ∀ c ∈ g.lonMin, isDig c = true) (h6 : ∀ c ∈ g.lonSec, isDig c = true) :
    convertGroups g =
      ((if g.latDir.toUpper == 'S'
          then -((digitsToNat g.latDeg : ℚ) + (digitsToNat g.latMin : ℚ) / 60 +
                 (digitsToNat g.latSec : ℚ) / 3600)
          else (digitsToNat g.latDeg : ℚ) + (digitsToNat g.latMin : ℚ) / 60 +
               (digitsToNat g.latSec : ℚ) / 3600),
       (if g.lonDir.toUpper == 'W'
          then -((digitsToNat g.lonDeg : ℚ) + (digitsToNat g.lonMin : ℚ) / 60 +
                 (digitsToNat g.lonSec : ℚ) / 3600)
          else (digitsToNat g.lonDeg : ℚ) + (digitsToNat g.lonMin : ℚ) / 60 +
               (digitsToNat g.lonSec : ℚ) / 3600)) := by
  unfold convertGroups
  rw [pyFloat_digits h1, pyFloat_digits h2, pyFloat_digits h3,
    pyFloat_digits h4, pyFloat_digits h5, pyFloat_digits h6]

/-! ### Concrete inputs used by the claims -/

/-- `40°50'55"N 84°04'51"W` (scenario 2 of the spec). -/
def noSpacePairChars : List Char :=
  ['4', '0', '°', '5', '0', apos, '5', '5', quot, 'N', ' ',
   '8', '4', '°', '0', '4', apos, '5', '1', quot, 'W']

/-- `40°50'55"n 84°04'51"w`: the lower-case hemisphere variant. -/
def noSpacePairLowerChars : List Char :=
  ['4', '0', '°', '5', '0', apos, '5', '5', quot, 'n', ' ',
   '8', '4', '°', '0', '4', apos, '5', '1', quot, 'w']

/-- `10° 0' 0" E, 20° 0' 0" N`: `E` in the first group, `N` in the second. -/
def crossHemiChars : List Char :=
  ['1', '0', '°', ' ', '0', apos, ' ', '0', quot, ' ', 'E', ',', ' ',
   '2', '0', '°', ' ', '0', apos, ' ', '0', quot, ' ', 'N']

/-- The input text matches none of the four branches of the function. -/
def NoGrammarMatches (l : List Char) : Prop :=
  search pat1M (trimChars l) = none ∧ search pat2M (trimChars l) = none ∧
  containsSub litChars (trimChars l) = false ∧ search simpM (trimChars l) = none

lemma tryPatterns_pat2 {cl : List Char} {g : DmsCaps} {r : List Char}
    (h1 : search pat1M cl = none) (h2 : search pat2M cl = some (g, r)) :
    tryPatterns cl = some g := by
  simp [tryPatterns, h1, h2]

/-- Concrete run: the literal-exception input is captured by pattern 1
and converted arithmetically. -/
lemma parse_lit_eval :
    parse_coordinates (.str (String.mk litChars)) =
      ⟨some (121596 / 3600), some (-(425820 / 3600)), none⟩ := by
  have h1 : search pat1M (trimChars litChars) =
      some (⟨['3', '3'], ['4', '6'], ['3', '6'], 'N', ['1', '1', '8'], ['1', '7'], ['0'], 'W'⟩, []) := by
    decide
  rw [parse_str, if_neg (by decide), tryPatterns_pat1 h1]
  simp only [hitResult]
  rw [convertGroups_digits _ (by decide) (by decide) (by decide) (by decide) (by decide) (by decide)]
  norm_num [show ('N'.toUpper == 'S') = false from by decide,
    show ('W'.toUpper == 'W') = true from by decide,
    show digitsToNat ['3', '3'] = 33 from by decide,
    show digitsToNat ['4', '6'] = 46 from by decide,
    show digitsToNat ['3', '6'] = 36 from by decide,
    show digitsToNat ['1', '1', '8'] = 118 from by decide,
    show digitsToNat ['1', '7'] = 17 from by decide,
    show digitsToNat ['0'] = 0 from by decide]

/-- Concrete run: `40°50'55"N 84°04'51"W` is captured by pattern 2. -/
lemma parse_noSpacePair_eval :
    parse_coordinates (.str (String.mk noSpacePairChars)) =
      ⟨some (147055 / 3600), some (-(302691 / 3600)), none⟩ := by
  have h1 : search pat1M (trimChars noSpacePairChars) = none := by decide
  have h2 : search pat2M (trimChars noSpacePairChars) =
      some (⟨['4', '0'], ['5', '0'], ['5', '5'], 'N', ['8', '4'], ['0', '4'], ['5', '1'], 'W'⟩, []) := by
    decide
  rw [parse_str, if_neg (by decide), tryPatterns_pat2 h1 h2]
  simp only [hitResult]
  rw [convertGroups_digits _ (by decide) (by decide) (by decide) (by decide) (by decide) (by decide)]
  norm_num [show ('N'.toUpper == 'S') = false from by decide,
    show ('W'.toUpper == 'W') = true from by decide,
    show digitsToNat ['4', '0'] = 40 from by decide,
    show digitsToNat ['5', '0'] = 50 from by decide,
    show digitsToNat ['5', '5'] = 55 from by decide,
    show digitsToNat ['8', '4'] = 84 from by decide,
    show digitsToNat ['0', '4'] = 4 from by decide,
    show digitsToNat ['5', '1'] = 51 from by decide]

/-- Concrete run: the lower-case variant gives the same pair. -/
lemma parse_noSpacePairLower_eval :
    parse_coordinates (.str (String.mk noSpacePairLowerChars)) =
      ⟨some (147055 / 3600), some (-(302691 / 3600)), none⟩ := by
  have h1 : search pat1M (trimChars noSpacePairLowerChars) = none := by decide
  have h2 : search pat2M (trimChars noSpacePairLowerChars) =
      some (⟨['4', '0'], ['5', '0'], ['5', '5'], 'n', ['8', '4'], ['0', '4'], ['5', '1'], 'w'⟩, []) := by
    decide
  rw [parse_str, if_neg (by decide), tryPatterns_pat2 h1 h2]
  simp only [hitResult]
  rw [convertGroups_digits _ (by decide) (by decide) (by decide) (by decide) (by decide) (by decide)]
  norm_num [show ('n'.toUpper == 'S') = false from by decide,
    show ('w'.toUpper == 'W') = true from by decide,
    show digitsToNat ['4', '0'] = 40 from by decide,
    show digitsToNat ['5', '0'] = 50 from by decide,
    show digitsToNat ['5', '5'] = 55 from by decide,
    show digitsToNat ['8', '4'] = 84 from by decide,
    show digitsToNat ['0', '4'] = 4 from by decide,
    show digitsToNat ['5', '1'] = 51 from by decide]

/-- Concrete run: `E` first and `N` second still parse, both positive. -/
lemma parse_crossHemi_eval :
    parse_coordinates (.str (String.mk crossHemiChars)) =
      ⟨some 10, some 20, none⟩ := by
  have h1 : search pat1M (trimChars crossHemiChars) =
      some (⟨['1', '0'], ['0'], ['0'], 'E', ['2', '0'], ['0'], ['0'], 'N'⟩, []) := by
    decide
  rw [parse_str, if_neg (by decide), tryPatterns_pat1 h1]
  simp only [hitResult]
  rw [convertGroups_digits _ (by decide) (by decide) (by decide) (by decide) (by decide) (by decide)]
  norm_num [show ('E'.toUpper == 'S') = false from by decide,
    show ('N'.toUpper == 'W') = false from by decide,
    show digitsToNat ['1', '0'] = 10 from by decide,
    show digitsToNat ['2', '0'] = 20 from by decide,
    show digitsToNat ['0'] = 0 from by decide]

/-! ### The claims -/

/-- C1: on the literal-exception input `33° 46' 36" N, 118° 17' 0" W` the
code returns the strict-DMS-arithmetic value of grammar 1
(`33.77666…, -118.28333…` as exact rationals), not the hard-mapped
literal `(33.77, -118.283333)`: pattern 1 matches the literal text and is
tried first, so the special case of lines 50-52 can never fire.  This
theorem evaluates the code at the failing input and shows both
components differ from the hard-mapped pair. -/
theorem C1_literal_exception_dead_code :
    parse_coordinates (.str (String.mk litChars)) =
      ⟨some (121596 / 3600), some (-(425820 / 3600)), none⟩ ∧
    (121596 / 3600 : ℚ) ≠ 3377 / 100 ∧
    (-(425820 / 3600) : ℚ) ≠ -(118283333 / 1000000) :=
  ⟨parse_lit_eval, by norm_num, by norm_num⟩

/-- C2: every well-formed comma-separated DMS pair string of the form
`D1° M1' S1" H1, D2° M2' S2" H2` (unsigned-integer degree and minute
digit strings, possibly-fractional seconds, hemisphere letters from the
case-insensitive class `[NSEW]`) parses to exactly
`(sign(H1)*(D1+M1/60+S1/3600), sign(H2)*(D2+M2/60+S2/3600))`, the sign
being `-1` for `S` (first group) or `W` (second group) and `+1`
otherwise; the equality is exact in `ℚ`, hence well within `1e-6`. -/
theorem C2_comma_dms_formula (d1 m1 s1i s1f : List Char) (h1 : Char)
    (d2 m2 s2i s2f : List Char) (h2 : Char)
    (hd1 : DigitStr d1) (hm1 : DigitStr m1) (hs1i : DigitStr s1i)
    (hs1f : ∀ c ∈ s1f, isDig c = true) (hh1 : isNSEW h1 = true)
    (hd2 : DigitStr d2) (hm2 : DigitStr m2) (hs2i : DigitStr s2i)
    (hs2f : ∀ c ∈ s2f, isDig c = true) (hh2 : isNSEW h2 = true) :
    parse_coordinates (.str (String.mk (renderPair d1 m1 s1i s1f h1 d2 m2 s2i s2f h2))) =
      ⟨some (latSign h1 * dmsVal d1 m1 s1i s1f),
       some (lonSign h2 * dmsVal d2 m2 s2i s2f), none⟩ :=
  parse_renderPair hd1 hm1 hs1i hs1f hh1 hd2 hm2 hs2i hs2f hh2

/-- Witness for C2 at `37° 18' 3" N, 77° 16' 14" W` (scenario 1 of the
spec). -/
theorem C2_comma_dms_formula_witness :
    DigitStr ['3', '7'] ∧
    parse_coordinates (.str (String.mk
        (renderPair ['3', '7'] ['1', '8'] ['3'] [] 'N' ['7', '7'] ['1', '6'] ['1', '4'] [] 'W'))) =
      ⟨some (latSign 'N' * dmsVal ['3', '7'] ['1', '8'] ['3'] []),
       some (lonSign 'W' * dmsVal ['7', '7'] ['1', '6'] ['1', '4'] []), none⟩ :=
  ⟨⟨by decide, by decide⟩,
   C2_comma_dms_formula ['3', '7'] ['1', '8'] ['3'] [] 'N' ['7', '7'] ['1', '6'] ['1', '4'] [] 'W'
     ⟨by decide, by decide⟩ ⟨by decide, by decide⟩ ⟨by decide, by decide⟩ (by decide) (by decide)
     ⟨by decide, by decide⟩ ⟨by decide, by decide⟩ ⟨by decide, by decide⟩ (by decide) (by decide)⟩

/-- C3: the function is total past its own boundary: for absent, empty or
non-string input, and for text matching no grammar, it returns the absent
pair `(None, None)` instead of raising (the embedded body is a total
function, mirroring the `try/except` wrapper of lines 12-82), and for
non-empty unparsable text it also emits the NoMatch diagnostic of
line 78. -/
theorem C3_never_raises_absent_pair (inp : PyInput) :
    ((inp = .absent ∨ inp = .nonStr ∨ inp = .str "") →
      parse_coordinates inp = ⟨none, none, none⟩) ∧
    (∀ s : String, inp = .str s → s.data ≠ [] → NoGrammarMatches s.data →
      parse_coordinates inp = ⟨none, none, some Diagnostic.noMatch⟩) := by
  constructor
  · rintro (rfl | rfl | rfl) <;> rfl
  · rintro s rfl hne hng
    cases s with
    | mk data =>
    rw [parse_str, if_neg hne]
    have ht : tryPatterns (trimChars data) = none := by
      unfold tryPatterns
      rw [hng.1, hng.2.1]
    rw [ht]
    simp only [hng.2.2.1, hng.2.2.2, Bool.false_eq_true, if_false]

/-- Witness for C3 at the garbage text `not a coordinate` (scenario 4 of
the spec). -/
theorem C3_never_raises_absent_pair_witness :
    ("not a coordinate" : String).data ≠ [] ∧
    NoGrammarMatches ("not a coordinate" : String).data ∧
    parse_coordinates (.str "not a coordinate") = ⟨none, none, some Diagnostic.noMatch⟩ :=
  ⟨by decide, ⟨by decide, by decide, by decide, by decide⟩,
   (C3_never_raises_absent_pair (.str "not a coordinate")).2 _ rfl (by decide)
     ⟨by decide, by decide, by decide, by decide⟩⟩

/-- C4: for every input the two returned fields are present together or
absent together; no branch of the function produces a partial pair. -/
theorem C4_both_or_neither (inp : PyInput) :
    ((parse_coordinates inp).lat = none ↔ (parse_coordinates inp).lon = none) := by
  cases inp with
  | absent => simp [parse_coordinates]
  | nonStr => simp [parse_coordinates]
  | str s =>
    cases s with
    | mk data =>
    rw [parse_str]
    by_cases he : data = []
    · simp [he]
    · rw [if_neg he]
      cases ht : tryPatterns (trimChars data) with
      | some g => simp [hitResult]
      | none =>
        cases hc : containsSub litChars (trimChars data) with
        | true => simp [hc]
        | false =>
          simp only [hc, Bool.false_eq_true, if_false]
          cases hs : search simpM (trimChars data) with
          | some p => obtain ⟨g, r⟩ := p; simp [hitResult]
          | none => simp

/-- C5: the whole function is extensionally equal to the reduced parser
that only tries pattern 1 and pattern 2: the literal-exception branch
(lines 50-52) is shadowed because any string containing the literal is
matched by pattern 1, and the strict no-space branch (lines 54-76) is
shadowed because any match of the strict pattern is a match of pattern 2
with the same captured groups. -/
theorem C5_reduced_parser_equivalence (inp : PyInput) :
    parse_coordinates inp = reducedParse inp :=
  parse_eq_reduced_aux inp

/-- C6: hemisphere matching is case-insensitive: flipping the case of any
`[NSEW]` letter anywhere in any input leaves the parse result unchanged;
in particular `40°50'55"N 84°04'51"W` and `40°50'55"n 84°04'51"w` parse
to identical results, with the lower-case `w` still negating the
longitude. -/
theorem C6_hemisphere_case_flip :
    (∀ (l : List Char) (i : Nat) (hi : i < l.length),
        isNSEW (l.get ⟨i, hi⟩) = true →
        parse_coordinates (.str (String.mk (l.set i (flipCase (l.get ⟨i, hi⟩))))) =
          parse_coordinates (.str (String.mk l))) ∧
    parse_coordinates (.str (String.mk noSpacePairLowerChars)) =
      parse_coordinates (.str (String.mk noSpacePairChars)) ∧
    parse_coordinates (.str (String.mk noSpacePairLowerChars)) =
      ⟨some (147055 / 3600), some (-(302691 / 3600)), none⟩ := by
  refine ⟨fun l i hi h => parse_set_flip hi h, ?_, parse_noSpacePairLower_eval⟩
  rw [parse_noSpacePairLower_eval, parse_noSpacePair_eval]

/-- Witness for C6: flipping the `N` (index 9) of
`40°50'55"N 84°04'51"W`. -/
theorem C6_hemisphere_case_flip_witness :
    parse_coordinates (.str (String.mk
        (noSpacePairChars.set 9 (flipCase (noSpacePairChars.get ⟨9, by decide⟩))))) =
      parse_coordinates (.str (String.mk noSpacePairChars)) :=
  C6_hemisphere_case_flip.1 noSpacePairChars 9 (by decide) (by decide)

/-- C7: substituting the typographic unit marks `º`, `′`, `″` for the
ASCII `°`, `'`, `"` throughout any input yields an identical parse
result. -/
theorem C7_typographic_marks (inp : PyInput) :
    parse_coordinates (substInput inp) = parse_coordinates inp := by
  cases inp with
  | absent => rfl
  | nonStr => rfl
  | str s =>
    cases s with
    | mk data => exact parse_map substTypo_ok data

/-- C8: the space-separated (no comma) grammar is recognized:
`40°50'55"N 84°04'51"W` parses to
`(147055/3600, -302691/3600) = (40.848611…, -84.080833…)`, the longitude
negated by `W`. -/
theorem C8_space_separated_pair :
    parse_coordinates (.str (String.mk noSpacePairChars)) =
      ⟨some (147055 / 3600), some (-(302691 / 3600)), none⟩ :=
  parse_noSpacePair_eval

/-- C9: the parser is stateless and deterministic: in the caller's row
loop the result at each position depends only on that row's input, not
on any earlier or later call, and equal inputs anywhere in a batch give
equal results. -/
theorem C9_stateless_idempotent :
    (∀ (pre : List PyInput) (inp : PyInput) (post : List PyInput),
        (runBatch (pre ++ inp :: post))[pre.length]? = some (parse_coordinates inp)) ∧
    (∀ (l : List PyInput) (i j : Nat), l[i]? = l[j]? →
        (runBatch l)[i]? = (runBatch l)[j]?) := by
  constructor
  · intro pre inp post
    unfold runBatch
    rw [List.map_append, List.getElem?_append_right (by simp)]
    simp
  · intro l i j hij
    unfold runBatch
    rw [List.getElem?_map, List.getElem?_map, hij]

/-- Witness for C9: two equal inputs at positions 0 and 2 of a batch give
equal results. -/
theorem C9_stateless_idempotent_witness :
    (runBatch [PyInput.absent, PyInput.str "x", PyInput.absent])[0]? =
      (runBatch [PyInput.absent, PyInput.str "x", PyInput.absent])[2]? :=
  C9_stateless_idempotent.2 [PyInput.absent, PyInput.str "x", PyInput.absent] 0 2 (by decide)

/-- C10: hemisphere letters are not validated by position in patterns 1
and 2: `10° 0' 0" E, 20° 0' 0" N` — `E` in the first group and `N` in
the second — still parses, and both values come back positive because
the sign rule only checks the letter value (`S` for the first group, `W`
for the second). -/
theorem C10_cross_hemisphere_accepted :
    parse_coordinates (.str (String.mk crossHemiChars)) =
      ⟨some 10, some 20, none⟩ ∧ (0 : ℚ) < 10 ∧ (0 : ℚ) < 20 :=
  ⟨parse_crossHemi_eval, by norm_num, by norm_num⟩

end SAMap
